import Mathlib

/-!
Verification of the artifact-identity and configuration-propagation core of
the stock-price-prediction repository: the JSON configuration store
(`update_config` / `load_config`), the fetch-history ledger, the
symbol/fetch-id/data-file resolution layer, and the `extract_timestamp`
model-identifier parser.  Python dictionaries are embedded as association
lists with unique keys, JSON values as an inductive type (numbers restricted
to integers, which is all the configuration documents of this repository
contain), the filesystem as explicit state: the configuration file content is
an `Option Dict` and the ledger a list of lines.
-/

namespace SPP

/-- JSON values as stored in the configuration document. -/
inductive JsonVal where
  | null : JsonVal
  | bool (b : Bool) : JsonVal
  | num (n : Int) : JsonVal
  | str (s : String) : JsonVal
  | arr (elems : List JsonVal) : JsonVal
  | obj (fields : List (String × JsonVal)) : JsonVal

/-- A Python dict with string keys, JSON values: an association list. -/
abbrev Dict := List (String × JsonVal)

/-- Python `d[key]` / `key in d` lookup (keys are unique in a dict). -/
def dictLookup : Dict → String → Option JsonVal
  | [], _ => none
  | (k, v) :: rest, key => if k = key then some v else dictLookup rest key

/-- Python `d[key] = v`: overwrite in place if present, else append. -/
def setKey : Dict → String → JsonVal → Dict
  | [], key, v => [(key, v)]
  | (k, w) :: rest, key, v =>
      if k = key then (key, v) :: rest else (k, w) :: setKey rest key v

/-- Python `d.update(updates)`: assign each key of `updates` in order. -/
def dictUpdate (d : Dict) (updates : Dict) : Dict :=
  updates.foldl (fun acc kv => setKey acc kv.1 kv.2) d

/-- Python truthiness of a JSON value (`if value:`). -/
def truthy : JsonVal → Bool
  | .null => false
  | .bool b => b
  | .num n => n != 0
  | .str s => s != ""
  | .arr elems => !elems.isEmpty
  | .obj fields => !fields.isEmpty

/-- Lower-case hexadecimal digit, as CPython json emits in escapes. -/
def hexDigit (n : Nat) : Char :=
  if n < 10 then Char.ofNat (48 + n) else Char.ofNat (87 + n % 16)

/-- A JSON string escape of the form backslash-u-XXXX. -/
def uEscape (n : Nat) : List Char :=
  ['\\', 'u', hexDigit (n / 4096 % 16), hexDigit (n / 256 % 16),
   hexDigit (n / 16 % 16), hexDigit (n % 16)]

/-- CPython `json.dumps` escaping of one character (`ensure_ascii` default):
quote and backslash escaped, the five short-form controls, any other
character outside printable ASCII as backslash-u (surrogate pairs above
the basic plane). -/
def escapeCharJson (c : Char) : List Char :=
  if c = '"' then ['\\', '"']
  else if c = '\\' then ['\\', '\\']
  else if c = '\n' then ['\\', 'n']
  else if c = '\t' then ['\\', 't']
  else if c = '\r' then ['\\', 'r']
  else if c.toNat = 8 then ['\\', 'b']
  else if c.toNat = 12 then ['\\', 'f']
  else if c.toNat < 32 || 126 < c.toNat then
    if c.toNat ≤ 65535 then uEscape c.toNat
    else uEscape (55296 + (c.toNat - 65536) / 1024) ++
         uEscape (56320 + (c.toNat - 65536) % 1024)
  else [c]

/-- The escaped, quoted body of a JSON string literal. -/
def dumpsStr (s : String) : List Char :=
  '"' :: (s.toList.flatMap escapeCharJson) ++ ['"']

mutual

/-- CPython `json.dumps` with default separators (", " and ": "). -/
def dumpsVal : JsonVal → List Char
  | .null => "null".toList
  | .bool true => "true".toList
  | .bool false => "false".toList
  | .num n => (toString n).toList
  | .str s => dumpsStr s
  | .arr elems => '[' :: dumpsArr elems ++ [']']
  | .obj fields => Char.ofNat 123 :: dumpsObj fields ++ [Char.ofNat 125]

/-- Array elements joined by ", ". -/
def dumpsArr : List JsonVal → List Char
  | [] => []
  | [v] => dumpsVal v
  | v :: rest => dumpsVal v ++ ',' :: ' ' :: dumpsArr rest

/-- Object entries `"key": value` joined by ", ". -/
def dumpsObj : List (String × JsonVal) → List Char
  | [] => []
  | [(k, v)] => dumpsStr k ++ ':' :: ' ' :: dumpsVal v
  | (k, v) :: rest => dumpsStr k ++ ':' :: ' ' :: dumpsVal v ++ ',' :: ' ' :: dumpsObj rest

end

/-- `json.dumps` of a JSON value, as a string. -/
def dumps (v : JsonVal) : String := String.mk (dumpsVal v)

/-- `load_config` (src/spp/data_utils.py): re-reads the configuration file on
every call; missing file is an error, otherwise the parsed document.
The store argument is the current content of the configuration file. -/
def load_config (store : Option Dict) : Except String Dict :=
  match store with
  | none => .error "Config file not found"
  | some d => .ok d

/-- `update_config` (src/spp/data_utils.py).  State-passing embedding: `store`
is the configuration file content (`none` when absent), `history` the lines
of the fetch-history ledger, `historyPathGiven` whether a (truthy)
`history_path` argument was supplied, `kwargs` the keyword arguments.
Returns the written configuration document and the new ledger lines.
Steps, exactly as the source: start from the stored document or empty;
if `current_fetch` is among the kwargs, assign it wholesale; likewise
`current_models`; then `dict.update` with all remaining kwargs; finally,
if a history path was given, `current_fetch` was supplied and its value is
truthy, append one line `json.dumps` of that value to the ledger. -/
def update_config (store : Option Dict) (history : List String)
    (historyPathGiven : Bool) (kwargs : Dict) : Dict × List String :=
  let config0 := store.getD []
  let config1 :=
    match dictLookup kwargs "current_fetch" with
    | some v => setKey config0 "current_fetch" v
    | none => config0
  let config2 :=
    match dictLookup kwargs "current_models" with
    | some v => setKey config1 "current_models" v
    | none => config1
  let others := kwargs.filter (fun kv => kv.1 != "current_fetch" && kv.1 != "current_models")
  let config3 := dictUpdate config2 others
  let history2 :=
    match dictLookup kwargs "current_fetch" with
    | some v => if historyPathGiven && truthy v then history ++ [dumps v] else history
    | none => history
  (config3, history2)

/-- Parsed command-line namespace for the `spp.data_utils` callers: argparse
sets an attribute to `none` when the flag is absent. -/
structure Args where
  stock_symbol : Option String := none
  fetch_id : Option String := none

/-- Python `s.upper()` / `s.lower()` on the ASCII strings this repository
handles, over the character list (kernel-reducible, unlike `String.map`). -/
def upperStr (s : String) : String := String.mk (s.toList.map Char.toUpper)

/-- ASCII lower-casing, see `upperStr`. -/
def lowerStr (s : String) : String := String.mk (s.toList.map Char.toLower)

/-- Python truthiness of an optional string attribute (`args.x` after
`hasattr`): present and non-empty. -/
def argValue : Option String → Option String
  | some s => if s = "" then none else some s
  | none => none

/-- Python truthiness of the `config` argument: a present, non-empty dict. -/
def configTruthy : Option Dict → Bool
  | some d => !d.isEmpty
  | none => false

/-- Python `config["stock_symbol"].upper()` on a JSON value: only strings
have `.upper`; anything else raises. -/
def upperJson : JsonVal → Except String String
  | .str s => .ok (upperStr s)
  | _ => .error "AttributeError: upper"

/-- The chain `config and "current_fetch" in config and key in
config["current_fetch"]`, returning the value under `key` when every test
passes, `none` when some test is false, and an error when `current_fetch`
is not an object (the membership test then raises; configurations written
by this repository always store an object there). -/
def currentFetchKey (config : Option Dict) (key : String) : Except String (Option JsonVal) :=
  if configTruthy config then
    match dictLookup (config.getD []) "current_fetch" with
    | some (.obj cf) => .ok (dictLookup cf key)
    | some _ => .error "TypeError: membership test on non-object current_fetch"
    | none => .ok none
  else
    .ok none

/-- `get_stock_symbol` (src/spp/data_utils.py).  When `mandatory`, only the
command-line argument is consulted; otherwise the chain is command-line,
then `current_fetch.stock_symbol`, then top-level `stock_symbol`, else an
error.  Every returned symbol is upper-cased. -/
def get_stock_symbol (args : Option Args) (config : Option Dict)
    (mandatory : Bool) : Except String String :=
  if mandatory then
    match args.bind (fun a => argValue a.stock_symbol) with
    | some s => .ok (upperStr s)
    | none => .error "Stock symbol is required but not provided via command-line"
  else
    match args.bind (fun a => argValue a.stock_symbol) with
    | some s => .ok (upperStr s)
    | none =>
      match currentFetchKey config "stock_symbol" with
      | .error e => .error e
      | .ok (some v) => upperJson v
      | .ok none =>
        if configTruthy config then
          match dictLookup (config.getD []) "stock_symbol" with
          | some v => upperJson v
          | none => .error "Stock symbol must be provided via command-line, current_fetch in config, or top-level config"
        else
          .error "Stock symbol must be provided via command-line, current_fetch in config, or top-level config"

/-- `get_fetch_id` (src/spp/data_utils.py).  Chain: command-line, then
`current_fetch.fetch_id`; when neither yields a value the function raises
in both branches of the final `if`, only the message depends on
`mandatory`.  A config-supplied value is returned as-is (no upper-casing,
no type restriction). -/
def get_fetch_id (args : Option Args) (config : Option Dict)
    (mandatory : Bool) : Except String JsonVal :=
  match args.bind (fun a => argValue a.fetch_id) with
  | some f => .ok (.str f)
  | none =>
    match currentFetchKey config "fetch_id" with
    | .error e => .error e
    | .ok (some v) => .ok v
    | .ok none =>
      if mandatory then .error "Fetch ID is required but not provided via command-line"
      else .error "Fetch ID must be provided via command-line or current_fetch in config"

/-- Parsed command-line namespace for the legacy scripts
(src/scripts/process_data.py, src/scripts/model.py): a `--symbol` flag. -/
structure PdArgs where
  symbol : Option String := none

/-- `get_stock_symbol` (src/scripts/process_data.py, identical copy in
src/scripts/model.py): command-line, then top-level `stock_symbol` in the
config, then the STOCK_SYMBOL environment variable (`env`), else the
conventional default "TSLA". -/
def pd_get_stock_symbol (args : PdArgs) (config : Dict)
    (env : Option String) : Except String String :=
  match argValue args.symbol with
  | some s => .ok (upperStr s)
  | none =>
    match dictLookup config "stock_symbol" with
    | some v => upperJson v
    | none =>
      match argValue env with
      | some s => .ok (upperStr s)
      | none => .ok "TSLA"

/-- Two-argument `os.path.join` on POSIX paths. -/
def joinPath (a b : String) : String :=
  if b.toList.head? = some '/' then b
  else if a = "" then b
  else if a.toList.getLast? = some '/' then a ++ b
  else a ++ "/" ++ b

/-- The directory key `dir_map.get(data_type, "data")` of `load_data`. -/
def dirKeyFor (data_type : String) : String :=
  if data_type = "raw" then "raw_data_dir"
  else if data_type = "cleaned" ∨ data_type = "processed" then "processed_data_dir"
  else "data"

/-- `load_data` (src/spp/data_utils.py) up to the existence check: resolves
the data-file path and fails when it does not exist.  `root` is
PROJECT_ROOT, `fs` the set of existing paths.  The explicit
`<data_type>_data_file` recorded under `current_fetch` wins when present
(and not null); otherwise the path is synthesized from the configuration's
directory key and `<data_type>_<symbol_lower>_<fetch_id>.csv`.  On success
the resolved path is returned (the subsequent CSV read is a library call
outside this model). -/
def load_data (root : String) (fs : List String) (config : Dict)
    (stock_symbol fetch_id data_type : String) : Except String String :=
  let dataFile : Except String (Option String) :=
    match dictLookup config "current_fetch" with
    | none => .ok none
    | some (.obj cf) =>
      match dictLookup cf (data_type ++ "_data_file") with
      | none => .ok none
      | some .null => .ok none
      | some (.str p) => .ok (some p)
      | some _ => .error "TypeError: non-string data_file path"
    | some _ => .error "AttributeError: get on non-object current_fetch"
  match dataFile with
  | .error e => .error e
  | .ok (some p) =>
    let path := joinPath root p
    if fs.contains path then .ok path
    else .error ("Data file not found for " ++ data_type ++ " data")
  | .ok none =>
    match dictLookup config (dirKeyFor data_type) with
    | some (.str d) =>
      let path := joinPath (joinPath root d)
        (data_type ++ "_" ++ lowerStr stock_symbol ++ "_" ++ fetch_id ++ ".csv")
      if fs.contains path then .ok path
      else .error ("Data file not found for " ++ data_type ++ " data")
    | some _ => .error "TypeError: non-string data directory"
    | none =>
      let path := joinPath (joinPath root "data")
        (data_type ++ "_" ++ lowerStr stock_symbol ++ "_" ++ fetch_id ++ ".csv")
      if fs.contains path then .ok path
      else .error ("Data file not found for " ++ data_type ++ " data")

/-- Python `s.split('_')` on a character list: always at least one segment,
an empty string yields `[[]]`, adjacent separators yield empty segments. -/
def splitUnderscore : List Char → List (List Char)
  | [] => [[]]
  | c :: rest =>
    let r := splitUnderscore rest
    if c = '_' then [] :: r else (c :: r.headI) :: r.tail

/-- Python `'_'.join` on character-list segments. -/
def joinUnderscore : List (List Char) → List Char
  | [] => []
  | [x] => x
  | x :: rest => x ++ '_' :: joinUnderscore rest

/-- ASCII decimal digit test, as the `\d` of CPython strptime patterns. -/
def isDig (c : Char) : Bool := '0' ≤ c && c ≤ '9'

/-- Numeric value of an ASCII digit. -/
def digVal (c : Char) : Nat := c.toNat - 48

/-- One-digit regex alternative constrained by `p` on its value: the matched
value and the remaining input, in a singleton list, or no match. -/
def take1 (p : Nat → Bool) : List Char → List (Nat × List Char)
  | c :: rest => if isDig c && p (digVal c) then [(digVal c, rest)] else []
  | [] => []

/-- Two-digit regex alternative constrained by `p` on its value. -/
def take2 (p : Nat → Bool) : List Char → List (Nat × List Char)
  | a :: b :: rest =>
    if isDig a && isDig b && p (digVal a * 10 + digVal b) then
      [(digVal a * 10 + digVal b, rest)] else []
  | _ => []

/-- `%Y` of CPython strptime: exactly four digits. -/
def altsY : List Char → List (Nat × List Char)
  | a :: b :: c :: d :: rest =>
    if isDig a && isDig b && isDig c && isDig d then
      [(((digVal a * 10 + digVal b) * 10 + digVal c) * 10 + digVal d, rest)]
    else []
  | _ => []

/-- `%m`: the alternatives `1[0-2]`, `0[1-9]`, `[1-9]`, in preference order. -/
def altsM (cs : List Char) : List (Nat × List Char) :=
  take2 (fun v => 10 ≤ v && v ≤ 12) cs ++ take2 (fun v => 1 ≤ v && v ≤ 9) cs ++
  take1 (fun v => 1 ≤ v) cs

/-- `%d`: the alternatives `3[01]`, `[12]\d`, `0[1-9]`, `[1-9]`. -/
def altsD (cs : List Char) : List (Nat × List Char) :=
  take2 (fun v => 30 ≤ v && v ≤ 31) cs ++ take2 (fun v => 10 ≤ v && v ≤ 29) cs ++
  take2 (fun v => 1 ≤ v && v ≤ 9) cs ++ take1 (fun v => 1 ≤ v) cs

/-- `%H`: the alternatives `2[0-3]`, `[0-1]\d`, `\d`. -/
def altsH (cs : List Char) : List (Nat × List Char) :=
  take2 (fun v => 20 ≤ v && v ≤ 23) cs ++ take2 (fun v => v ≤ 19) cs ++
  take1 (fun _ => true) cs

/-- `%M`: the alternatives `[0-5]\d`, `\d`. -/
def altsMin (cs : List Char) : List (Nat × List Char) :=
  take2 (fun v => v ≤ 59) cs ++ take1 (fun _ => true) cs

/-- `%S`: the alternatives `6[0-1]`, `[0-5]\d`, `\d` (leap seconds are
admitted by the regex and rejected later by the datetime constructor). -/
def altsS (cs : List Char) : List (Nat × List Char) :=
  take2 (fun v => 60 ≤ v && v ≤ 61) cs ++ take2 (fun v => v ≤ 59) cs ++
  take1 (fun _ => true) cs

/-- A literal character of the pattern. -/
def matchLit (c : Char) : List Char → List (Unit × List Char)
  | x :: rest => if x = c then [((), rest)] else []
  | [] => []

/-- The six numeric fields of `%Y%m%d_%H%M%S` in one structure. -/
structure TimeParts where
  y : Nat
  mon : Nat
  d : Nat
  h : Nat
  minu : Nat
  sec : Nat

/-- All complete matches of the pattern `%Y%m%d_%H%M%S` against `cs`, in
backtracking preference order, each with its unconsumed remainder: the
list-of-successes rendering of CPython re backtracking, whose returned
match is the head. -/
def strptimeMatches (cs : List Char) : List (TimeParts × List Char) :=
  (altsY cs).flatMap fun yr =>
  (altsM yr.2).flatMap fun mr =>
  (altsD mr.2).flatMap fun dr =>
  (matchLit '_' dr.2).flatMap fun ur =>
  (altsH ur.2).flatMap fun hr =>
  (altsMin hr.2).flatMap fun nr =>
  (altsS nr.2).map fun sr =>
  (⟨yr.1, mr.1, dr.1, hr.1, nr.1, sr.1⟩, sr.2)

/-- Gregorian leap-year rule, as `datetime`. -/
def isLeapYear (y : Nat) : Bool :=
  y % 4 == 0 && (y % 100 != 0 || y % 400 == 0)

/-- Days in a month, as validated by the `datetime` constructor. -/
def daysInMonth (y mon : Nat) : Nat :=
  if mon = 2 then (if isLeapYear y then 29 else 28)
  else if mon = 4 ∨ mon = 6 ∨ mon = 9 ∨ mon = 11 then 30
  else 31

/-- The range checks the `datetime` constructor performs on the fields the
regex delivered (year at least 1, day within the month, second at most 59;
the regex already confines month, day lower bound, hour and minute). -/
def dateValid (tp : TimeParts) : Bool :=
  1 ≤ tp.y && 1 ≤ tp.mon && tp.mon ≤ 12 && 1 ≤ tp.d &&
  tp.d ≤ daysInMonth tp.y tp.mon && tp.h ≤ 23 && tp.minu ≤ 59 && tp.sec ≤ 59

/-- `datetime.strptime(s, "%Y%m%d_%H%M%S")` succeeds: the first regex match
exists, consumes the whole string, and yields constructor-valid fields. -/
def strptimeOk (cs : List Char) : Bool :=
  match strptimeMatches cs with
  | [] => false
  | (tp, rest) :: _ => rest.isEmpty && dateValid tp

/-- `extract_timestamp` (src/spp/data_utils.py): split the model id on `_`;
require at least 6 segments, first segment `model`, last two segments
joining to `with_outliers` or `without_outliers`; the timestamp is
segments [-4:-2] joined with `_`, validated against `%Y%m%d_%H%M%S`. -/
def extract_timestamp (model_id : String) : Except String String :=
  let parts := splitUnderscore model_id.toList
  if parts.length < 6 then
    .error "Model ID has too few parts"
  else if parts.headI ≠ "model".toList then
    .error "Model ID must start with model"
  else
    let suffix := joinUnderscore (parts.drop (parts.length - 2))
    if suffix ≠ "with_outliers".toList ∧ suffix ≠ "without_outliers".toList then
      .error "Model ID must end with with_outliers or without_outliers"
    else
      let timestamp := joinUnderscore ((parts.drop (parts.length - 4)).take 2)
      if strptimeOk timestamp then .ok (String.mk timestamp)
      else .error "Invalid timestamp format"

theorem dictLookup_setKey_self (d : Dict) (k : String) (v : JsonVal) :
    dictLookup (setKey d k v) k = some v := by
  induction d with
  | nil => simp [setKey, dictLookup]
  | cons kv rest ih =>
    obtain ⟨a, b⟩ := kv
    by_cases h : a = k
    · simp [setKey, h, dictLookup]
    · simp [setKey, h, dictLookup, ih]

theorem dictLookup_setKey_ne (d : Dict) (k k' : String) (v : JsonVal)
    (h : k' ≠ k) : dictLookup (setKey d k v) k' = dictLookup d k' := by
  have h2 : k ≠ k' := Ne.symm h
  induction d with
  | nil => simp [setKey, dictLookup, h2]
  | cons kv rest ih =>
    obtain ⟨a, b⟩ := kv
    by_cases hk : a = k
    · simp [setKey, hk, dictLookup, h2]
    · simp [setKey, hk, dictLookup, ih]

theorem dictLookup_eq_none_iff (d : Dict) (k : String) :
    dictLookup d k = none ↔ ∀ kv ∈ d, kv.1 ≠ k := by
  induction d with
  | nil => simp [dictLookup]
  | cons kv rest ih =>
    obtain ⟨a, b⟩ := kv
    by_cases h : a = k
    · simp [dictLookup, h]
    · simp [dictLookup, h, ih]

theorem dictLookup_dictUpdate_not_mem (d us : Dict) (k : String)
    (h : ∀ kv ∈ us, kv.1 ≠ k) :
    dictLookup (dictUpdate d us) k = dictLookup d k := by
  induction us generalizing d with
  | nil => simp [dictUpdate]
  | cons kv rest ih =>
    have h1 : kv.1 ≠ k := h kv (by simp)
    have h2 : ∀ kv' ∈ rest, kv'.1 ≠ k := fun kv' hm => h kv' (by simp [hm])
    show dictLookup (dictUpdate (setKey d kv.1 kv.2) rest) k = dictLookup d k
    rw [ih _ h2, dictLookup_setKey_ne _ _ _ _ (fun hh => h1 hh.symm)]

theorem dictLookup_dictUpdate_mem (d us : Dict) (k : String) (v : JsonVal)
    (hnd : (us.map Prod.fst).Nodup) (h : dictLookup us k = some v) :
    dictLookup (dictUpdate d us) k = some v := by
  induction us generalizing d with
  | nil => simp [dictLookup] at h
  | cons kv rest ih =>
    obtain ⟨a, b⟩ := kv
    show dictLookup (dictUpdate (setKey d a b) rest) k = some v
    by_cases hk : a = k
    · subst hk
      simp only [dictLookup, if_pos rfl] at h
      have hnot : ∀ kv' ∈ rest, kv'.1 ≠ a := by
        simp only [List.map_cons, List.nodup_cons, List.mem_map] at hnd
        intro kv' hm he
        exact hnd.1 ⟨kv', hm, he⟩
      rw [dictLookup_dictUpdate_not_mem _ _ _ hnot, dictLookup_setKey_self]
      simpa using h
    · simp only [dictLookup, if_neg hk] at h
      have hnd' : (rest.map Prod.fst).Nodup := by
        simp only [List.map_cons, List.nodup_cons] at hnd
        exact hnd.2
      exact ih _ hnd' h

theorem dictLookup_filter (d : Dict) (p : String × JsonVal → Bool) (k : String)
    (hp : ∀ v, p (k, v) = true) :
    dictLookup (d.filter p) k = dictLookup d k := by
  induction d with
  | nil => simp [dictLookup]
  | cons kv rest ih =>
    by_cases hk : kv.1 = k
    · have : p kv = true := by
        have := hp kv.2
        rwa [show (k, kv.2) = kv by rw [← hk]] at this
      simp [List.filter_cons, this, dictLookup, hk]
    · by_cases hpkv : p kv = true
      · simp [List.filter_cons, hpkv, dictLookup, hk, ih]
      · simp [List.filter_cons, hpkv, dictLookup, hk, ih]

/-- Members of the non-pointer kwargs of `update_config` never carry the
`current_fetch` or `current_models` key. -/
theorem mem_others_ne (kwargs : Dict) (kv : String × JsonVal)
    (h : kv ∈ kwargs.filter
      (fun kv => kv.1 != "current_fetch" && kv.1 != "current_models")) :
    kv.1 ≠ "current_fetch" ∧ kv.1 ≠ "current_models" := by
  have := List.of_mem_filter h
  simp only [Bool.and_eq_true, bne_iff_ne, ne_eq] at this
  exact this

/-- C2.  `update_config` with a `current_fetch` field followed by
`load_config` on the written document yields exactly the supplied
`current_fetch` value: the old value is replaced wholesale, never merged
key-by-key. -/
theorem update_then_load_replaces_current_fetch
    (store : Option Dict) (history : List String) (hp : Bool)
    (kwargs : Dict) (X : JsonVal)
    (h : dictLookup kwargs "current_fetch" = some X) :
    ∃ cfg, load_config (some (update_config store history hp kwargs).1) = .ok cfg ∧
      dictLookup cfg "current_fetch" = some X := by
  refine ⟨(update_config store history hp kwargs).1, rfl, ?_⟩
  unfold update_config
  simp only [h]
  have hothers : ∀ kv ∈ kwargs.filter
      (fun kv => kv.1 != "current_fetch" && kv.1 != "current_models"),
      kv.1 ≠ "current_fetch" := fun kv hm => (mem_others_ne kwargs kv hm).1
  cases hcm : dictLookup kwargs "current_models" with
  | none =>
    simp only [hcm]
    rw [dictLookup_dictUpdate_not_mem _ _ _ hothers, dictLookup_setKey_self]
  | some w =>
    simp only [hcm]
    rw [dictLookup_dictUpdate_not_mem _ _ _ hothers,
      dictLookup_setKey_ne _ _ _ _ (by decide), dictLookup_setKey_self]

/-- C2 witness: set `current_fetch = obj [a ↦ 1]`, then update with
`current_fetch = obj [b ↦ 2]`; the loaded value is exactly `obj [b ↦ 2]`
(in particular not the key-merge of the two). -/
theorem update_then_load_replaces_current_fetch_witness :
    (∃ cfg,
        load_config (some (update_config
          (some (update_config (some []) [] false
            [("current_fetch", JsonVal.obj [("a", .num 1)])]).1)
          [] false
          [("current_fetch", JsonVal.obj [("b", .num 2)])]).1) = .ok cfg ∧
        dictLookup cfg "current_fetch" = some (JsonVal.obj [("b", .num 2)])) ∧
    JsonVal.obj [("b", JsonVal.num 2)] ≠
      JsonVal.obj [("a", .num 1), ("b", .num 2)] :=
  ⟨update_then_load_replaces_current_fetch _ _ _ _ _ rfl, by simp⟩

/-- C3.  The ledger: an update supplying a history path and a non-empty
(truthy) `current_fetch` appends exactly one line, the JSON serialization
of that value; an update that supplies no `current_fetch` key (for example
one touching only `current_models` or static paths) appends nothing. -/
theorem update_config_ledger
    (store : Option Dict) (history : List String) (hp : Bool)
    (kwargs : Dict) (X : JsonVal) :
    (dictLookup kwargs "current_fetch" = some X → truthy X = true →
      (update_config store history true kwargs).2 = history ++ [dumps X]) ∧
    (dictLookup kwargs "current_fetch" = none →
      (update_config store history hp kwargs).2 = history) := by
  constructor
  · intro h ht
    unfold update_config
    simp [h, ht]
  · intro h
    unfold update_config
    simp [h]

/-- C3 witness: a fetch update appends its one serialized line; a
models-only update appends none. -/
theorem update_config_ledger_witness :
    (update_config (some []) ["old"] true
        [("current_fetch", JsonVal.obj [("fetch_id", .str "f1")])]).2 =
      ["old"] ++ [dumps (JsonVal.obj [("fetch_id", .str "f1")])] ∧
    (update_config (some []) ["old"] true
        [("current_models", JsonVal.obj [("with_outliers", .str "m1")])]).2 =
      ["old"] :=
  ⟨(update_config_ledger (some []) ["old"] true _
      (JsonVal.obj [("fetch_id", .str "f1")])).1 rfl rfl,
   (update_config_ledger (some []) ["old"] true _ JsonVal.null).2 rfl⟩

/-- C9.  Shallow merge of the non-pointer fields: every supplied field other
than `current_fetch`/`current_models` overwrites the top-level key of the
same name, and every top-level key not among the supplied fields keeps
exactly its previous value (the previous document being the stored one, or
empty when the file was absent). -/
theorem update_config_shallow_merge
    (store : Option Dict) (history : List String) (hp : Bool)
    (kwargs : Dict) (hnd : (kwargs.map Prod.fst).Nodup) :
    (∀ k v, k ≠ "current_fetch" → k ≠ "current_models" →
      dictLookup kwargs k = some v →
      dictLookup (update_config store history hp kwargs).1 k = some v) ∧
    (∀ k, dictLookup kwargs k = none →
      dictLookup (update_config store history hp kwargs).1 k =
        dictLookup (store.getD []) k) := by
  constructor
  · intro k v hcf hcm h
    unfold update_config
    have hfp : ∀ w, (fun kv : String × JsonVal =>
        kv.1 != "current_fetch" && kv.1 != "current_models") (k, w) = true := by
      intro w
      simp [hcf, hcm]
    have hnd' : ((kwargs.filter (fun kv =>
        kv.1 != "current_fetch" && kv.1 != "current_models")).map Prod.fst).Nodup :=
      hnd.sublist (List.Sublist.map _ (List.filter_sublist _))
    have hlf : dictLookup (kwargs.filter (fun kv =>
        kv.1 != "current_fetch" && kv.1 != "current_models")) k = some v := by
      rw [dictLookup_filter _ _ _ hfp]; exact h
    exact dictLookup_dictUpdate_mem _ _ _ _ hnd' hlf
  · intro k h
    unfold update_config
    have hall : ∀ kv ∈ kwargs, kv.1 ≠ k := (dictLookup_eq_none_iff kwargs k).1 h
    have hothers : ∀ kv ∈ kwargs.filter (fun kv =>
        kv.1 != "current_fetch" && kv.1 != "current_models"), kv.1 ≠ k :=
      fun kv hm => hall kv (List.mem_of_mem_filter hm)
    rw [dictLookup_dictUpdate_not_mem _ _ _ hothers]
    cases hcf : dictLookup kwargs "current_fetch" with
    | none =>
      cases hcm : dictLookup kwargs "current_models" with
      | none => simp [hcf, hcm]
      | some w =>
        have : k ≠ "current_models" := by
          intro he
          subst he
          rw [hcm] at h
          exact Option.noConfusion h
        simp only [hcf, hcm]
        rw [dictLookup_setKey_ne _ _ _ _ this]
    | some w =>
      have hkcf : k ≠ "current_fetch" := by
        intro he
        subst he
        rw [hcf] at h
        exact Option.noConfusion h
      cases hcm : dictLookup kwargs "current_models" with
      | none =>
        simp only [hcf, hcm]
        rw [dictLookup_setKey_ne _ _ _ _ hkcf]
      | some w' =>
        have hkcm : k ≠ "current_models" := by
          intro he
          subst he
          rw [hcm] at h
          exact Option.noConfusion h
        simp only [hcf, hcm]
        rw [dictLookup_setKey_ne _ _ _ _ hkcm, dictLookup_setKey_ne _ _ _ _ hkcf]

/-- C9 witness: updating a stored document `[raw_data_dir ↦ "old", keep ↦ 7]`
with `raw_data_dir ↦ "data/raw"` overwrites that key and leaves `keep`
untouched. -/
theorem update_config_shallow_merge_witness :
    dictLookup (update_config
        (some [("raw_data_dir", JsonVal.str "old"), ("keep", .num 7)])
        [] false [("raw_data_dir", JsonVal.str "data/raw")]).1
      "raw_data_dir" = some (JsonVal.str "data/raw") ∧
    dictLookup (update_config
        (some [("raw_data_dir", JsonVal.str "old"), ("keep", .num 7)])
        [] false [("raw_data_dir", JsonVal.str "data/raw")]).1
      "keep" = dictLookup
        ((some [("raw_data_dir", JsonVal.str "old"), ("keep", .num 7)] :
          Option Dict).getD []) "keep" :=
  ⟨(update_config_shallow_merge
      (some [("raw_data_dir", JsonVal.str "old"), ("keep", .num 7)]) [] false
      [("raw_data_dir", JsonVal.str "data/raw")] (by simp)).1
      "raw_data_dir" (JsonVal.str "data/raw") (by decide) (by decide) rfl,
   (update_config_shallow_merge
      (some [("raw_data_dir", JsonVal.str "old"), ("keep", .num 7)]) [] false
      [("raw_data_dir", JsonVal.str "data/raw")] (by simp)).2 "keep" rfl⟩

/-- C6.  Precedence of non-mandatory stock-symbol resolution in
`spp.data_utils.get_stock_symbol`: an explicit command-line value wins over
everything; absent that, the `stock_symbol` of the configuration's
`current_fetch` block; absent that, the legacy top-level `stock_symbol`
key.  Each source's value is returned upper-cased. -/
theorem get_stock_symbol_precedence
    (args : Option Args) (a : Args) (config : Option Dict) (cfgd cf : Dict)
    (s t u : String) :
    (args = some a → argValue a.stock_symbol = some s →
      get_stock_symbol args config false = .ok (upperStr s)) ∧
    (args.bind (fun x => argValue x.stock_symbol) = none → cfgd ≠ [] →
      dictLookup cfgd "current_fetch" = some (.obj cf) →
      dictLookup cf "stock_symbol" = some (.str t) →
      get_stock_symbol args (some cfgd) false = .ok (upperStr t)) ∧
    (args.bind (fun x => argValue x.stock_symbol) = none → cfgd ≠ [] →
      currentFetchKey (some cfgd) "stock_symbol" = .ok none →
      dictLookup cfgd "stock_symbol" = some (.str u) →
      get_stock_symbol args (some cfgd) false = .ok (upperStr u)) := by
  refine ⟨?_, ?_, ?_⟩
  · intro ha hv
    subst ha
    simp [get_stock_symbol, Option.bind, hv]
  · intro ha hne hcf ht
    have hemp : cfgd.isEmpty = false := by
      cases cfgd with
      | nil => exact absurd rfl hne
      | cons x l => rfl
    simp [get_stock_symbol, ha, currentFetchKey, configTruthy, hemp, hcf, ht, upperJson]
  · intro ha hne hok hu
    have hemp : cfgd.isEmpty = false := by
      cases cfgd with
      | nil => exact absurd rfl hne
      | cons x l => rfl
    simp [get_stock_symbol, ha, hok, configTruthy, hemp, hu, upperJson]

/-- C6 witness: with `args.stock_symbol = "AAPL"` and
`config.current_fetch.stock_symbol = "TSLA"` the resolved symbol is
`"AAPL"`; with no args value it is `"TSLA"`. -/
theorem get_stock_symbol_precedence_witness :
    get_stock_symbol (some { stock_symbol := some "AAPL" })
      (some [("current_fetch", JsonVal.obj [("stock_symbol", .str "TSLA")])])
      false = .ok "AAPL" ∧
    get_stock_symbol none
      (some [("current_fetch", JsonVal.obj [("stock_symbol", .str "TSLA")])])
      false = .ok "TSLA" := by
  constructor
  · have h := (get_stock_symbol_precedence
      (some { stock_symbol := some "AAPL" }) { stock_symbol := some "AAPL" }
      (some [("current_fetch", JsonVal.obj [("stock_symbol", .str "TSLA")])])
      [] [] "AAPL" "" "").1 rfl rfl
    rw [h]
    rfl
  · have h := (get_stock_symbol_precedence none { } none
      [("current_fetch", JsonVal.obj [("stock_symbol", .str "TSLA")])]
      [("stock_symbol", JsonVal.str "TSLA")] "" "TSLA" "").2.1 rfl
      (by simp) rfl rfl
    rw [h]
    rfl

/-- C10.  With `mandatory = true`, `get_stock_symbol` consults only the
command-line source: a present non-empty `args.stock_symbol` is returned
upper-cased, and any other args state is an error, whatever symbols the
configuration holds under `current_fetch` or at top level. -/
theorem get_stock_symbol_mandatory_only_args
    (args : Option Args) (a : Args) (config : Option Dict) (s : String) :
    (args = some a → argValue a.stock_symbol = some s →
      get_stock_symbol args config true = .ok (upperStr s)) ∧
    (args.bind (fun x => argValue x.stock_symbol) = none →
      get_stock_symbol args config true =
        .error "Stock symbol is required but not provided via command-line") := by
  constructor
  · intro ha hv
    subst ha
    simp [get_stock_symbol, Option.bind, hv]
  · intro ha
    simp [get_stock_symbol, ha]

/-- C10 witness: with no command-line symbol and a configuration carrying a
symbol both under `current_fetch` and at top level, the mandatory call
still errors; with a command-line symbol it upper-cases it. -/
theorem get_stock_symbol_mandatory_only_args_witness :
    get_stock_symbol none
      (some [("current_fetch", JsonVal.obj [("stock_symbol", .str "TSLA")]),
             ("stock_symbol", JsonVal.str "MSFT")]) true =
      .error "Stock symbol is required but not provided via command-line" ∧
    get_stock_symbol (some { stock_symbol := some "aapl" }) none true = .ok "AAPL" := by
  constructor
  · exact (get_stock_symbol_mandatory_only_args none { }
      (some [("current_fetch", JsonVal.obj [("stock_symbol", .str "TSLA")]),
             ("stock_symbol", JsonVal.str "MSFT")]) "").2 rfl
  · have h := (get_stock_symbol_mandatory_only_args
      (some { stock_symbol := some "aapl" }) { stock_symbol := some "aapl" }
      none "aapl").1 rfl rfl
    rw [h]
    rfl

/-- C4 counterexample: with resolution optional and no source yielding a
value, `spp.data_utils.get_stock_symbol` does not return the conventional
default "TSLA" — it raises the unresolved-symbol error. -/
theorem get_stock_symbol_no_source_not_default :
    get_stock_symbol none none false ≠ .ok "TSLA" ∧
    get_stock_symbol none none false =
      .error "Stock symbol must be provided via command-line, current_fetch in config, or top-level config" := by
  constructor
  · intro h
    simp [get_stock_symbol, currentFetchKey, configTruthy] at h
  · rfl

/-- C4 amended.  When resolution is optional and no source yields a value,
`spp.data_utils.get_stock_symbol` raises an unresolved-identifier error;
the conventional default "TSLA" is returned only by the legacy resolver of
src/scripts/process_data.py (and its copy in src/scripts/model.py), whose
chain is command line → top-level config key → environment → "TSLA". -/
theorem get_stock_symbol_no_source
    (args : Option Args) (config : Option Dict)
    (pargs : PdArgs) (pconfig : Dict) (env : Option String) :
    (args.bind (fun x => argValue x.stock_symbol) = none →
      currentFetchKey config "stock_symbol" = .ok none →
      (configTruthy config = false ∨ dictLookup (config.getD []) "stock_symbol" = none) →
      get_stock_symbol args config false =
        .error "Stock symbol must be provided via command-line, current_fetch in config, or top-level config") ∧
    (argValue pargs.symbol = none → dictLookup pconfig "stock_symbol" = none →
      argValue env = none →
      pd_get_stock_symbol pargs pconfig env = .ok "TSLA") := by
  constructor
  · intro ha hcf hcfg
    cases hcfg with
    | inl h => simp [get_stock_symbol, ha, hcf, h]
    | inr h =>
      cases ht : configTruthy config with
      | false => simp [get_stock_symbol, ha, hcf, ht]
      | true => simp [get_stock_symbol, ha, hcf, ht, h]
  · intro ha hc he
    simp [pd_get_stock_symbol, ha, hc, he]

/-- C4 amended witness: empty sources make the data_utils resolver error and
the legacy resolver return "TSLA". -/
theorem get_stock_symbol_no_source_witness :
    get_stock_symbol none none false =
      .error "Stock symbol must be provided via command-line, current_fetch in config, or top-level config" ∧
    pd_get_stock_symbol { } [] none = .ok "TSLA" :=
  ⟨(get_stock_symbol_no_source none none { } [] none).1 rfl rfl (Or.inl rfl),
   (get_stock_symbol_no_source none none { } [] none).2 rfl rfl rfl⟩

/-- C5 counterexample: with resolution optional (`mandatory = false`) and no
source yielding a fetch id, `get_fetch_id` does not return a caller-visible
absent value — it raises. -/
theorem get_fetch_id_no_source_raises :
    get_fetch_id none none false =
      .error "Fetch ID must be provided via command-line or current_fetch in config" := rfl

/-- C5 amended.  `get_fetch_id` raises whenever neither the command line nor
the configuration's `current_fetch` yields a fetch id, for both values of
`mandatory`; the flag only selects which error message is raised, and the
function never returns an absent value. -/
theorem get_fetch_id_no_source
    (args : Option Args) (config : Option Dict) (mandatory : Bool)
    (ha : args.bind (fun x => argValue x.fetch_id) = none)
    (hcf : currentFetchKey config "fetch_id" = .ok none) :
    get_fetch_id args config mandatory =
      .error (if mandatory then "Fetch ID is required but not provided via command-line"
              else "Fetch ID must be provided via command-line or current_fetch in config") := by
  cases mandatory with
  | false => simp [get_fetch_id, ha, hcf]
  | true => simp [get_fetch_id, ha, hcf]

/-- C5 amended witness: both mandatory settings raise on empty sources. -/
theorem get_fetch_id_no_source_witness :
    get_fetch_id none none true =
      .error (if true then "Fetch ID is required but not provided via command-line"
              else "Fetch ID must be provided via command-line or current_fetch in config") ∧
    get_fetch_id none none false =
      .error (if false then "Fetch ID is required but not provided via command-line"
              else "Fetch ID must be provided via command-line or current_fetch in config") :=
  ⟨get_fetch_id_no_source none none true rfl rfl,
   get_fetch_id_no_source none none false rfl rfl⟩

/-- C7.  Data-file resolution of `load_data`: the explicit
`<kind>_data_file` recorded under `current_fetch` wins when present;
otherwise the path is synthesized from the configuration's directory key
and the convention `<kind>_<symbol_lower>_<fetch_id>.csv`; in both tiers a
resolved path absent from storage is a file-not-found error, never an
empty or default result. -/
theorem load_data_resolution
    (root : String) (fs : List String) (config : Dict)
    (sym fid dtype : String) (cf : Dict) (p d : String) :
    (dictLookup config "current_fetch" = some (.obj cf) →
      dictLookup cf (dtype ++ "_data_file") = some (.str p) →
      load_data root fs config sym fid dtype =
        (if fs.contains (joinPath root p) then .ok (joinPath root p)
         else .error ("Data file not found for " ++ dtype ++ " data"))) ∧
    ((dictLookup config "current_fetch" = none ∨
        (dictLookup config "current_fetch" = some (.obj cf) ∧
         dictLookup cf (dtype ++ "_data_file") = none)) →
      dictLookup config (dirKeyFor dtype) = some (.str d) →
      load_data root fs config sym fid dtype =
        (if fs.contains (joinPath (joinPath root d)
              (dtype ++ "_" ++ lowerStr sym ++ "_" ++ fid ++ ".csv")) then
           .ok (joinPath (joinPath root d)
              (dtype ++ "_" ++ lowerStr sym ++ "_" ++ fid ++ ".csv"))
         else .error ("Data file not found for " ++ dtype ++ " data"))) := by
  constructor
  · intro hcf hfile
    simp [load_data, hcf, hfile]
  · intro hcase hdir
    cases hcase with
    | inl h => simp [load_data, h, hdir]
    | inr h => simp [load_data, h.1, h.2, hdir]

/-- C7 witness: an override path present on storage resolves to it; a
synthesized path absent from storage is a file-not-found error. -/
theorem load_data_resolution_witness :
    load_data "/proj" ["/proj/data/raw/override.csv"]
      [("current_fetch", JsonVal.obj [("raw_data_file", .str "data/raw/override.csv")])]
      "TSLA" "fetch_1" "raw" = .ok "/proj/data/raw/override.csv" ∧
    load_data "/proj" []
      [("processed_data_dir", JsonVal.str "data/processed")]
      "TSLA" "fetch_1" "processed" =
      .error ("Data file not found for " ++ "processed" ++ " data") := by
  constructor
  · have h := (load_data_resolution "/proj" ["/proj/data/raw/override.csv"]
      [("current_fetch", JsonVal.obj [("raw_data_file", .str "data/raw/override.csv")])]
      "TSLA" "fetch_1" "raw" [("raw_data_file", .str "data/raw/override.csv")]
      "data/raw/override.csv" "").1 rfl rfl
    rw [h]
    rfl
  · have h := (load_data_resolution "/proj" []
      [("processed_data_dir", JsonVal.str "data/processed")]
      "TSLA" "fetch_1" "processed" [] "" "data/processed").2 (Or.inl rfl) rfl
    rw [h]
    rfl

theorem splitUnderscore_no_sep (cs : List Char) (h : '_' ∉ cs) :
    splitUnderscore cs = [cs] := by
  induction cs with
  | nil => rfl
  | cons c rest ih =>
    have hc : c ≠ '_' := fun he => h (he ▸ List.mem_cons_self c rest)
    have hrest : '_' ∉ rest := fun hm => h (List.mem_cons_of_mem c hm)
    simp [splitUnderscore, hc, ih hrest]

theorem splitUnderscore_append (a b : List Char) (h : '_' ∉ a) :
    splitUnderscore (a ++ '_' :: b) = a :: splitUnderscore b := by
  induction a with
  | nil => simp [splitUnderscore]
  | cons c a' ih =>
    have hc : c ≠ '_' := fun he => h (he ▸ List.mem_cons_self c a')
    have ha' : '_' ∉ a' := fun hm => h (List.mem_cons_of_mem c hm)
    simp [splitUnderscore, hc, ih ha']

/-- All characters are ASCII digits. -/
def allDig (l : List Char) : Bool := l.all isDig

theorem allDig_not_underscore (l : List Char) (h : allDig l = true) :
    '_' ∉ l := by
  intro hm
  have := List.all_eq_true.1 h _ hm
  simp [isDig] at this

theorem take1_consumes (p : Nat → Bool) (cs : List Char) (x : Nat × List Char)
    (h : x ∈ take1 p cs) : ∃ ds, cs = ds ++ x.2 ∧ allDig ds = true := by
  cases cs with
  | nil => simp [take1] at h
  | cons c rest =>
    simp only [take1] at h
    by_cases hd : (isDig c && p (digVal c)) = true
    · rw [if_pos hd] at h
      have hx : x = (digVal c, rest) := List.mem_singleton.1 h
      rw [Bool.and_eq_true] at hd
      exact ⟨[c], by simp [hx], by simp [allDig, hd.1]⟩
    · rw [if_neg hd] at h
      simp at h

theorem take2_consumes (p : Nat → Bool) (cs : List Char) (x : Nat × List Char)
    (h : x ∈ take2 p cs) : ∃ ds, cs = ds ++ x.2 ∧ allDig ds = true := by
  match cs with
  | [] => simp [take2] at h
  | [c] => simp [take2] at h
  | c1 :: c2 :: rest =>
    simp only [take2] at h
    by_cases hd : (isDig c1 && isDig c2 && p (digVal c1 * 10 + digVal c2)) = true
    · rw [if_pos hd] at h
      have hx : x = (digVal c1 * 10 + digVal c2, rest) := List.mem_singleton.1 h
      rw [Bool.and_eq_true, Bool.and_eq_true] at hd
      exact ⟨[c1, c2], by simp [hx], by simp [allDig, hd.1.1, hd.1.2]⟩
    · rw [if_neg hd] at h
      simp at h

theorem altsY_consumes (cs : List Char) (x : Nat × List Char)
    (h : x ∈ altsY cs) : ∃ ds, cs = ds ++ x.2 ∧ allDig ds = true := by
  match cs with
  | [] => simp [altsY] at h
  | [c] => simp [altsY] at h
  | [c, c'] => simp [altsY] at h
  | [c, c', c''] => simp [altsY] at h
  | a :: b :: c :: d :: rest =>
    simp only [altsY] at h
    by_cases hd : (isDig a && isDig b && isDig c && isDig d) = true
    · rw [if_pos hd] at h
      have hx := List.mem_singleton.1 h
      rw [Bool.and_eq_true, Bool.and_eq_true, Bool.and_eq_true] at hd
      exact ⟨[a, b, c, d], by simp [hx], by simp [allDig, hd.1.1.1, hd.1.1.2, hd.1.2, hd.2]⟩
    · rw [if_neg hd] at h
      simp at h

theorem altsM_consumes (cs : List Char) (x : Nat × List Char)
    (h : x ∈ altsM cs) : ∃ ds, cs = ds ++ x.2 ∧ allDig ds = true := by
  simp only [altsM, List.mem_append] at h
  rcases h with (h | h) | h
  · exact take2_consumes _ _ _ h
  · exact take2_consumes _ _ _ h
  · exact take1_consumes _ _ _ h

theorem altsD_consumes (cs : List Char) (x : Nat × List Char)
    (h : x ∈ altsD cs) : ∃ ds, cs = ds ++ x.2 ∧ allDig ds = true := by
  simp only [altsD, List.mem_append] at h
  rcases h with ((h | h) | h) | h
  · exact take2_consumes _ _ _ h
  · exact take2_consumes _ _ _ h
  · exact take2_consumes _ _ _ h
  · exact take1_consumes _ _ _ h

theorem altsH_consumes (cs : List Char) (x : Nat × List Char)
    (h : x ∈ altsH cs) : ∃ ds, cs = ds ++ x.2 ∧ allDig ds = true := by
  simp only [altsH, List.mem_append] at h
  rcases h with (h | h) | h
  · exact take2_consumes _ _ _ h
  · exact take2_consumes _ _ _ h
  · exact take1_consumes _ _ _ h

theorem altsMin_consumes (cs : List Char) (x : Nat × List Char)
    (h : x ∈ altsMin cs) : ∃ ds, cs = ds ++ x.2 ∧ allDig ds = true := by
  simp only [altsMin, List.mem_append] at h
  rcases h with h | h
  · exact take2_consumes _ _ _ h
  · exact take1_consumes _ _ _ h

theorem altsS_consumes (cs : List Char) (x : Nat × List Char)
    (h : x ∈ altsS cs) : ∃ ds, cs = ds ++ x.2 ∧ allDig ds = true := by
  simp only [altsS, List.mem_append] at h
  rcases h with (h | h) | h
  · exact take2_consumes _ _ _ h
  · exact take2_consumes _ _ _ h
  · exact take1_consumes _ _ _ h

theorem matchLit_consumes (c : Char) (cs : List Char) (x : Unit × List Char)
    (h : x ∈ matchLit c cs) : cs = c :: x.2 := by
  cases cs with
  | nil => simp [matchLit] at h
  | cons c' rest =>
    simp only [matchLit] at h
    by_cases hc : c' = c
    · rw [if_pos hc] at h
      have hx := List.mem_singleton.1 h
      simp [hx, hc]
    · rw [if_neg hc] at h
      simp at h

/-- A string accepted by the strptime pattern `%Y%m%d_%H%M%S` is a digit
block, one underscore, and a second digit block. -/
theorem strptimeOk_decomp (cs : List Char) (h : strptimeOk cs = true) :
    ∃ A B, cs = A ++ '_' :: B ∧ allDig A = true ∧ allDig B = true := by
  unfold strptimeOk at h
  cases hm : strptimeMatches cs with
  | nil => rw [hm] at h; simp at h
  | cons x t =>
    rw [hm] at h
    obtain ⟨tp, rest⟩ := x
    simp only [Bool.and_eq_true] at h
    have hrest : rest = [] := by
      have := h.1
      simpa [List.isEmpty_iff] using this
    have hx : (tp, rest) ∈ strptimeMatches cs := by
      rw [hm]; exact List.mem_cons_self _ _
    simp only [strptimeMatches, List.mem_flatMap, List.mem_map] at hx
    obtain ⟨yr, hyr, mr, hmr, dr, hdr, ur, hur, hr2, hhr, nr, hnr, sr, hsr, heq⟩ := hx
    have hrest2 : sr.2 = rest := congrArg Prod.snd heq
    obtain ⟨dsY, hY, hYd⟩ := altsY_consumes cs _ hyr
    obtain ⟨dsM, hM, hMd⟩ := altsM_consumes yr.2 _ hmr
    obtain ⟨dsD, hD, hDd⟩ := altsD_consumes mr.2 _ hdr
    have hU := matchLit_consumes '_' dr.2 _ hur
    obtain ⟨dsH, hH, hHd⟩ := altsH_consumes ur.2 _ hhr
    obtain ⟨dsMi, hMi, hMid⟩ := altsMin_consumes hr2.2 _ hnr
    obtain ⟨dsS, hS, hSd⟩ := altsS_consumes nr.2 _ hsr
    refine ⟨dsY ++ dsM ++ dsD, dsH ++ dsMi ++ dsS, ?_, ?_, ?_⟩
    · rw [hY, hM, hD, hU, hH, hMi, hS, hrest2, hrest]
      simp [List.append_assoc]
    · simp only [allDig, List.all_append] at hYd hMd hDd ⊢
      simp [hYd, hMd, hDd]
    · simp only [allDig, List.all_append] at hHd hMid hSd ⊢
      simp [hHd, hMid, hSd]

/-- C8.  Any string splitting on `_` into fewer than 6 segments makes
`extract_timestamp` fail with the too-few-parts error: no value is ever
returned for such a string. -/
theorem extract_timestamp_too_few_parts (s : String)
    (h : (splitUnderscore s.toList).length < 6) :
    extract_timestamp s = .error "Model ID has too few parts" := by
  unfold extract_timestamp
  simp only [if_pos h]

/-- C8 witness: `"model_tsla"` splits into 2 segments and is rejected. -/
theorem extract_timestamp_too_few_parts_witness :
    (splitUnderscore "model_tsla".toList).length < 6 ∧
    extract_timestamp "model_tsla" = .error "Model ID has too few parts" :=
  ⟨by decide, extract_timestamp_too_few_parts "model_tsla" (by decide)⟩

/-- The split of a well-formed model identifier body: six segments. -/
theorem split_model_id (symbol : String) (A B v1 v2 : List Char)
    (hsym : '_' ∉ symbol.toList) (hA : '_' ∉ A) (hB : '_' ∉ B)
    (hv1 : '_' ∉ v1) (hv2 : '_' ∉ v2) :
    splitUnderscore ("model".toList ++ '_' :: (symbol.toList ++ '_' ::
        (A ++ '_' :: (B ++ '_' :: (v1 ++ '_' :: v2))))) =
      ["model".toList, symbol.toList, A, B, v1, v2] := by
  rw [splitUnderscore_append _ _ (by decide), splitUnderscore_append _ _ hsym,
    splitUnderscore_append _ _ hA, splitUnderscore_append _ _ hB,
    splitUnderscore_append _ _ hv1, splitUnderscore_no_sep _ hv2]

/-- C1.  For every identifier `model_<symbol>_<ts>_<variant>` with `symbol`
free of underscores, `ts` accepted by `%Y%m%d_%H%M%S`, and `variant` one
of the two outlier literals, `extract_timestamp` returns exactly `ts`. -/
theorem extract_timestamp_roundtrip (symbol ts variant : String)
    (hsym : '_' ∉ symbol.toList)
    (hts : strptimeOk ts.toList = true)
    (hvar : variant = "with_outliers" ∨ variant = "without_outliers") :
    extract_timestamp ("model_" ++ symbol ++ "_" ++ ts ++ "_" ++ variant) =
      .ok ts := by
  obtain ⟨A, B, hAB, hAd, hBd⟩ := strptimeOk_decomp ts.toList hts
  have hA : '_' ∉ A := allDig_not_underscore A hAd
  have hB : '_' ∉ B := allDig_not_underscore B hBd
  have hfull : ("model_" ++ symbol ++ "_" ++ ts ++ "_" ++ variant).toList =
      "model".toList ++ '_' ::
        (symbol.toList ++ '_' :: (ts.toList ++ '_' :: variant.toList)) := by
    show (((("model_".toList ++ symbol.toList) ++ "_".toList) ++ ts.toList) ++
        "_".toList) ++ variant.toList = _
    rw [List.append_assoc, List.append_assoc, List.append_assoc, List.append_assoc]
    rfl
  rcases hvar with hv | hv
  · have hvl : variant.toList = "with".toList ++ '_' :: "outliers".toList := by
      rw [hv]
      rfl
    have hsplit : splitUnderscore
        ("model_" ++ symbol ++ "_" ++ ts ++ "_" ++ variant).toList =
        ["model".toList, symbol.toList, A, B, "with".toList, "outliers".toList] := by
      rw [hfull, hvl, hAB]
      rw [show (A ++ '_' :: B) ++ '_' :: ("with".toList ++ '_' :: "outliers".toList) =
          A ++ '_' :: (B ++ '_' :: ("with".toList ++ '_' :: "outliers".toList)) by
        simp [List.append_assoc]]
      exact split_model_id symbol A B _ _ hsym hA hB (by decide) (by decide)
    unfold extract_timestamp
    rw [hsplit]
    have hsuf : joinUnderscore ["with".toList, "outliers".toList] =
        ("with_outliers" : String).toList := rfl
    have hstamp : joinUnderscore [A, B] = ts.toList := by
      rw [hAB]; rfl
    simp only [List.length_cons, List.length_nil]
    norm_num [List.headI, List.drop, List.take, hsuf, hstamp, hts]
    rw [if_neg (by decide), if_pos (show strptimeOk ts.data = true from hts)]
  · have hvl : variant.toList = "without".toList ++ '_' :: "outliers".toList := by
      rw [hv]
      rfl
    have hsplit : splitUnderscore
        ("model_" ++ symbol ++ "_" ++ ts ++ "_" ++ variant).toList =
        ["model".toList, symbol.toList, A, B, "without".toList, "outliers".toList] := by
      rw [hfull, hvl, hAB]
      rw [show (A ++ '_' :: B) ++ '_' :: ("without".toList ++ '_' :: "outliers".toList) =
          A ++ '_' :: (B ++ '_' :: ("without".toList ++ '_' :: "outliers".toList)) by
        simp [List.append_assoc]]
      exact split_model_id symbol A B _ _ hsym hA hB (by decide) (by decide)
    unfold extract_timestamp
    rw [hsplit]
    have hsuf : joinUnderscore ["without".toList, "outliers".toList] =
        ("without_outliers" : String).toList := rfl
    have hstamp : joinUnderscore [A, B] = ts.toList := by
      rw [hAB]; rfl
    simp only [List.length_cons, List.length_nil]
    norm_num [List.headI, List.drop, List.take, hsuf, hstamp, hts]
    rw [if_neg (by decide), if_pos (show strptimeOk ts.data = true from hts)]

/-- C1 witness: the documented example identifier round-trips. -/
theorem extract_timestamp_roundtrip_witness :
    extract_timestamp "model_tsla_20250730_102338_with_outliers" =
      .ok "20250730_102338" := by
  have h := extract_timestamp_roundtrip "tsla" "20250730_102338" "with_outliers"
    (by decide) (by decide) (Or.inl rfl)
  exact h

end SPP
